import Mathlib

/-!
Shallow embedding of `src/app.py` (a Telegram subscription bot driven by
Instamojo payment webhooks), covering the parts the specification's claims
are about:

* the persisted store `DB` — a Python dict mapping Telegram user ids
  (decimal strings) to subscription records, written whole-file by
  `save_db` (lines 48-52, 54);
* the webhook handler `instamojo_webhook` (lines 126-172): payment
  verification followed by the activation block;
* the expiry sweep `expiry_job` (lines 205-232).

External collaborators (the Telegram bot API, the Instamojo lookup, the
filesystem) are modelled as oracle values/functions supplied in environment
structures: the embedding records which external effects the code performs
(revocation calls, direct messages, file writes) rather than performing
them.  Python exceptions from those collaborators are modelled as the
failing branch of the corresponding oracle.
-/

namespace App

/-- A JSON/Python scalar as it can appear in a record field: an integer or
a string.  (The code only ever writes these two shapes into records.) -/
inductive PyVal : Type
  | pint (n : Int)
  | pstr (s : String)
  deriving DecidableEq

/-- Decimal value of a digit string. -/
def digitsToNat (l : List Char) : Nat :=
  l.foldl (fun a c => a * 10 + (c.toNat - 48)) 0

/-- Model of Python `int(s)` on a string: an optionally `-`-signed
non-empty run of decimal digits converts, anything else raises
(Python additionally tolerates surrounding whitespace, `+` and digit
underscores, which never occur in this program's data and are not
modelled). -/
def pyIntOfStr (s : String) : Option Int :=
  match s.data with
  | [] => none
  | '-' :: rest =>
    if rest ≠ [] ∧ rest.all Char.isDigit then some (-(digitsToNat rest : Int)) else none
  | l => if l.all Char.isDigit then some (digitsToNat l : Int) else none

/-- Model of Python `int(v)` applied to a JSON-loaded value: succeeds on an
int, succeeds on a string exactly when it is a decimal integer literal, and
raises (here: `none`) otherwise.  Used by `expiry_job` line 215. -/
def pyInt : PyVal → Option Int
  | .pint n => some n
  | .pstr s => pyIntOfStr s

/-- Model of Python `str(v)` (webhook line 148). -/
def pyStr : PyVal → String
  | .pint n => toString n
  | .pstr s => s

/-- Model of Python `str.isdigit` (webhook line 149): non-empty and all
characters are digits. -/
def pyIsDigit (s : String) : Bool :=
  !s.data.isEmpty && s.data.all Char.isDigit

/-- A subscription record, as the dict stored under one key of
`subscribers.json`.  Each field is `Option`al because a Python dict may
lack the key; `expiry_ts` keeps the raw value so that a malformed
(non-integer) value can be represented, as `expiry_job` guards it with
`int(...)` inside `try`. -/
structure Record where
  expiry_ts : Option PyVal
  status : Option String
  last_payment : Option String
  expired_at : Option String
  deriving DecidableEq

/-- Reading `rec.get("expiry_ts", 0)` followed by `int(...)`
(`expiry_job` line 215): a missing field defaults to `0`; a present field
is converted by `int`, which may raise (`none`). -/
def expiryInt (r : Record) : Option Int :=
  match r.expiry_ts with
  | none => some 0
  | some v => pyInt v

/-- The store: the in-memory Python dict `DB`, keyed by the subscriber id
as a decimal string.  Modelled as an association list in insertion order;
Python dicts never hold a key twice, which theorems assume as a
`keysNodup` hypothesis where it matters. -/
abbrev DB := List (String × Record)

def keysNodup (db : DB) : Prop := (db.map Prod.fst).Nodup

/-- `DB[k]` as an `Option`. -/
def dbGet (db : DB) (k : String) : Option Record :=
  (db.find? (fun p => p.1 = k)).map Prod.snd

/-- Python dict assignment `DB[k] = v`: replaces the value in place when
the key is present (keeping its position), otherwise appends a new entry. -/
def dbSet (db : DB) (k : String) (v : Record) : DB :=
  if db.any (fun p => p.1 = k) then
    db.map (fun p => if p.1 = k then (k, v) else p)
  else
    db ++ [(k, v)]

/-- Number of rows the store holds for key `k`. -/
def countKey (db : DB) (k : String) : Nat :=
  (db.filter (fun p => p.1 = k)).length

/-! ## Payment verification (webhook lines 129-151) -/

/-- The `metadata` field of an Instamojo payment request as the code
receives it: absent (or falsy), a JSON object, or a JSON-encoded string.
For the string case the outcome of `json.loads` is supplied by the
environment (`none` models a parse failure, which the code turns into an
empty dict, line 147). -/
inductive MetaRaw : Type
  | absent
  | mdict (m : List (String × PyVal))
  | mstr (decoded : Option (List (String × PyVal)))

/-- `meta = pr.get("metadata") or {}` then the `isinstance(meta, str)`
normalisation (lines 144-147): every path yields a dict. -/
def metaDict : MetaRaw → List (String × PyVal)
  | .absent => []
  | .mdict m => m
  | .mstr (some m) => m
  | .mstr none => []

/-- The payment-request object returned by the Instamojo lookup. -/
structure PaymentRequest where
  status : Option String
  metadata : MetaRaw

/-- `(pr or {}).get("status", "")` (line 139). -/
def prStatus : Option PaymentRequest → String
  | none => ""
  | some p => p.status.getD ""

/-- `pr.get("metadata")`, defaulting to absent when the lookup returned
no payment request at all. -/
def prMeta : Option PaymentRequest → MetaRaw
  | none => .absent
  | some p => p.metadata

/-- Dict lookup `m.get(k)`. -/
def lookupField (m : List (String × PyVal)) (k : String) : Option PyVal :=
  (m.find? (fun p => p.1 = k)).map Prod.snd

/-- The accepted payment statuses (line 140): the tuple
`("Completed", "Credit", "Success")`, compared verbatim. -/
def acceptedStatuses : List String := ["Completed", "Credit", "Success"]

/-- `str(meta.get("telegram_user_id", ""))` (line 148) for a given
payment-request object. -/
def tgField (pr : Option PaymentRequest) : String :=
  pyStr ((lookupField (metaDict (prMeta pr)) "telegram_user_id").getD (.pstr ""))

/-- Lines 129-151 of `instamojo_webhook`: from the (already form-decoded)
request id and the outcome of the gateway lookup
(`Except.error` models `im_get_payment_request` raising), either an early
`(body, http-status)` response (`Sum.inl`) or the verified numeric
Telegram id (`Sum.inr`). -/
def verifyPhase (req_id : String) (lookup : Except Unit (Option PaymentRequest)) :
    Sum (String × Nat) Nat :=
  if req_id = "" then Sum.inl ("missing request id", 200)
  else
    match lookup with
    | .error _ => Sum.inl ("verify failed", 200)
    | .ok pr =>
      if acceptedStatuses.contains (prStatus pr) = false then Sum.inl ("ignored", 200)
      else
        if pyIsDigit (tgField pr) = false then Sum.inl ("no user", 200)
        else Sum.inr (digitsToNat (tgField pr).data)

/-! ## Activation (webhook lines 153-172) -/

/-- Default `SUBSCRIPTION_DAYS` (line 22). -/
def SUBSCRIPTION_DAYS : Int := 30

/-- `timedelta(days=SUBSCRIPTION_DAYS)` in epoch seconds (line 155). -/
def subscriptionPeriod : Int := SUBSCRIPTION_DAYS * 86400

/-- Environment of one activation attempt: the outcome of
`create_single_use_invite` (`Except.error` = the Telegram call raised),
whether `save_db` completes (false = it raised), the current time
`int(datetime.now(IST).timestamp())` and its `isoformat()` string. -/
structure ActEnv where
  inviteRes : Except Unit String
  saveOk : Bool
  now : Int
  now_iso : String

/-- Observable outcome of the webhook handler: the in-memory `DB`
afterwards, how many `save_db` calls ran to completion, the content
durably written to `subscribers.json` (if any), the direct messages
dispatched (recipient id paired with the invite link the message carries),
and the HTTP response. -/
structure ActOut where
  db : DB
  saveCalls : Nat
  fileWrite : Option DB
  dms : List (Nat × String)
  response : String × Nat

/-- The fresh record written by lines 156-160: `status="active"`, the new
expiry, `last_payment` set, and no `expired_at` key. -/
def activationRecord (env : ActEnv) : Record :=
  { expiry_ts := some (.pint (env.now + subscriptionPeriod))
    status := some "active"
    last_payment := some env.now_iso
    expired_at := none }

/-- The `try` block of lines 153-170: issue the invite, overwrite the
record, persist, start the DM thread; any exception falls into
`except: pass` and the handler still answers `("ok", 200)`.  If the
invite call raises, nothing after it runs; if `save_db` raises, the
in-memory dict has already been mutated but no file write happened and
the DM thread is never started. -/
def activationPhase (db : DB) (tg_id : Nat) (env : ActEnv) : ActOut :=
  match env.inviteRes with
  | .error _ =>
    { db := db, saveCalls := 0, fileWrite := none, dms := [], response := ("ok", 200) }
  | .ok invite =>
    let db2 := dbSet db (toString tg_id) (activationRecord env)
    if env.saveOk then
      { db := db2, saveCalls := 1, fileWrite := some db2,
        dms := [(tg_id, invite)], response := ("ok", 200) }
    else
      { db := db2, saveCalls := 0, fileWrite := none, dms := [], response := ("ok", 200) }

/-- The whole webhook handler `instamojo_webhook` (lines 126-172). -/
def instamojo_webhook (db : DB) (req_id : String)
    (lookup : Except Unit (Option PaymentRequest)) (env : ActEnv) : ActOut :=
  match verifyPhase req_id lookup with
  | .inl resp => { db := db, saveCalls := 0, fileWrite := none, dms := [], response := resp }
  | .inr tg_id => activationPhase db tg_id env

/-! ## The expiry sweep (`expiry_job`, lines 205-232) -/

/-- Environment of one sweep run: the current time
`int(datetime.now(IST).timestamp())` (line 206), the `isoformat()` string
written into `expired_at` (line 220), and for each user id whether the
Telegram removal pair `ban_chat_member` / `unban_chat_member`
(lines 217-218) completes (`false` = one of the calls raised). -/
structure SweepEnv where
  now : Int
  now_iso : String
  revokeOk : String → Bool

/-- What the loop body (lines 214-230) does to one record: the record
afterwards, whether it changed state (`changed = True`), whether a
Telegram removal was attempted, and whether a renewal DM was sent. -/
structure RecStep where
  newRec : Record
  changed : Bool
  revoked : Bool
  dm : Bool
  deriving DecidableEq

/-- One iteration of the sweep loop.  The guard first compares
`rec.get("status") == "active"`; only then is `int(rec.get("expiry_ts", 0))`
evaluated, and if that raises the `except: continue` leaves the record
untouched with no Telegram call.  A due record is removed from the channel
first; if the removal raises, the record is left unchanged (`continue`),
otherwise it is marked expired with `expired_at` set and the renewal DM is
sent (`send_dm_blocking` swallows its own errors). -/
def sweepRec (env : SweepEnv) (uid : String) (r : Record) : RecStep :=
  if r.status = some "active" then
    match expiryInt r with
    | none => ⟨r, false, false, false⟩
    | some n =>
      if n ≤ env.now then
        if env.revokeOk uid then
          ⟨{ r with status := some "expired", expired_at := some env.now_iso },
            true, true, true⟩
        else ⟨r, false, true, false⟩
      else ⟨r, false, false, false⟩
  else ⟨r, false, false, false⟩

/-- Observable outcome of one sweep: the in-memory `DB` afterwards, how
many `save_db` calls ran, the content durably written (if any), the user
ids for which a Telegram removal was attempted, and the user ids sent a
renewal DM. -/
structure SweepOut where
  db : DB
  saveCalls : Nat
  fileWrite : Option DB
  revokes : List String
  dms : List String

/-- `expiry_job` (lines 205-232): an empty dict returns immediately
(line 207); otherwise every entry of the `list(DB.items())` snapshot is
processed by the loop body, and the store is saved once at the end iff
some record changed state (lines 231-232). -/
def expiry_job (db : DB) (env : SweepEnv) : SweepOut :=
  if db.isEmpty then
    { db := db, saveCalls := 0, fileWrite := none, revokes := [], dms := [] }
  else
    let steps := db.map (fun p => (p.1, sweepRec env p.1 p.2))
    let db2 := steps.map (fun q => (q.1, q.2.newRec))
    let changed := steps.any (fun q => q.2.changed)
    { db := db2
      saveCalls := if changed then 1 else 0
      fileWrite := if changed then some db2 else none
      revokes := (steps.filter (fun q => q.2.revoked)).map (fun q => q.1)
      dms := (steps.filter (fun q => q.2.dm)).map (fun q => q.1) }

/-- A record is *due* at `now`: `status == "active"` and its expiry
value converts to an integer `≤ now`.  (Exactly the loop guard of
line 215 succeeding.) -/
def Due (r : Record) (now : Int) : Prop :=
  r.status = some "active" ∧ ∃ n, expiryInt r = some n ∧ n ≤ now

instance (r : Record) (now : Int) : Decidable (Due r now) := by
  unfold Due; infer_instance

/-! ## Reachable store states

The store starts empty (`load_db` of a missing/corrupt file, lines 39-46)
and is only ever mutated by the webhook handler and the sweep. -/

inductive Reachable : DB → Prop
  | empty : Reachable []
  | webhook (db : DB) (req_id : String) (lookup : Except Unit (Option PaymentRequest))
      (env : ActEnv) (h : Reachable db) :
      Reachable (instamojo_webhook db req_id lookup env).db
  | sweep (db : DB) (env : SweepEnv) (h : Reachable db) :
      Reachable (expiry_job db env).db

/-! ## Dictionary lemmas -/

theorem dbGet_dbSet_self (db : DB) (k : String) (v : Record) :
    dbGet (dbSet db k v) k = some v := by
  unfold dbSet dbGet
  by_cases h : db.any (fun p => p.1 = k) = true
  · simp only [h, if_true]
    induction db with
    | nil => simp at h
    | cons p t ih =>
      simp only [List.any_cons, Bool.or_eq_true, decide_eq_true_eq] at h
      by_cases hp : p.1 = k
      · simp [hp, List.find?]
      · simp only [List.map_cons, if_neg hp, List.find?]
        have : (decide (p.1 = k)) = false := by simp [hp]
        simp only [this]
        rcases h with h | h
        · exact absurd h hp
        · exact ih h
  · simp only [h, if_false]
    induction db with
    | nil => simp [List.find?]
    | cons p t ih =>
      simp only [List.any_cons, Bool.or_eq_true, decide_eq_true_eq, not_or] at h
      simp only [List.cons_append, List.find?]
      have : (decide (p.1 = k)) = false := by simp [h.1]
      simp only [this]
      exact ih (by simp [h.2])

theorem keys_dbSet (db : DB) (k : String) (v : Record) :
    (dbSet db k v).map Prod.fst =
      if db.any (fun p => p.1 = k) then db.map Prod.fst else db.map Prod.fst ++ [k] := by
  unfold dbSet
  by_cases h : db.any (fun p => p.1 = k) = true
  · simp only [h, if_true, List.map_map]
    apply List.map_congr_left
    intro p _
    by_cases hp : p.1 = k <;> simp [hp, Function.comp]
  · simp [h]

theorem keysNodup_dbSet (db : DB) (k : String) (v : Record) (h : keysNodup db) :
    keysNodup (dbSet db k v) := by
  unfold keysNodup
  rw [keys_dbSet]
  by_cases ha : db.any (fun p => p.1 = k) = true
  · simpa [ha] using h
  · simp only [ha, if_false]
    have hk : k ∉ db.map Prod.fst := by
      intro hmem
      rcases List.mem_map.mp hmem with ⟨p, hp, hpk⟩
      have : db.any (fun p => p.1 = k) = true := List.any_eq_true.mpr ⟨p, hp, by simp [hpk]⟩
      exact ha this
    refine List.Nodup.append h (List.nodup_singleton k) ?_
    intro a ha2 hb2
    rcases List.mem_singleton.mp hb2 with rfl
    exact hk ha2

theorem countKey_eq_count (db : DB) (k : String) :
    countKey db k = (db.map Prod.fst).count k := by
  induction db with
  | nil => simp [countKey]
  | cons p t ih =>
    unfold countKey at ih ⊢
    by_cases hp : p.1 = k
    · simp [List.filter_cons, hp, List.count_cons, ih]
    · simp [List.filter_cons, hp, List.count_cons, ih]

theorem countKey_dbSet_self (db : DB) (k : String) (v : Record) (h : keysNodup db) :
    countKey (dbSet db k v) k = 1 := by
  rw [countKey_eq_count, keys_dbSet]
  by_cases ha : db.any (fun p => p.1 = k) = true
  · simp only [ha, if_true]
    have hk : k ∈ db.map Prod.fst := by
      rcases List.any_eq_true.mp ha with ⟨p, hp, hpk⟩
      exact List.mem_map.mpr ⟨p, hp, by simpa using hpk⟩
    exact List.count_eq_one_of_mem h hk
  · have hk : k ∉ db.map Prod.fst := by
      intro hmem
      rcases List.mem_map.mp hmem with ⟨p, hp, hpk⟩
      exact ha (List.any_eq_true.mpr ⟨p, hp, by simp [hpk]⟩)
    have ha2 : db.any (fun p => p.1 = k) = false := Bool.eq_false_iff.mpr ha
    simp [ha2, List.count_append, List.count_eq_zero.mpr hk]

theorem mem_of_dbGet (db : DB) (k : String) (r : Record) (h : dbGet db k = some r) :
    (k, r) ∈ db := by
  unfold dbGet at h
  rcases Option.map_eq_some'.mp h with ⟨p, hp, hpr⟩
  have hk : p.1 = k := by
    have := List.find?_some hp
    simpa using this
  have hmem := List.mem_of_find?_eq_some hp
  have : p = (k, r) := by
    cases p
    simp only at hk hpr
    simp [hk, hpr]
  rwa [this] at hmem

theorem dbGet_unique (db : DB) (k : String) (a b : Record)
    (hnd : keysNodup db) (ha : (k, a) ∈ db) (hb : (k, b) ∈ db) : a = b := by
  induction db with
  | nil => simp at ha
  | cons p t ih =>
    have hnd2 : keysNodup t := by
      unfold keysNodup at hnd ⊢
      simpa using (List.nodup_cons.mp (by simpa using hnd)).2
    have hnotin : p.1 ∉ t.map Prod.fst := by
      unfold keysNodup at hnd
      exact (List.nodup_cons.mp (by simpa using hnd)).1
    rcases List.mem_cons.mp ha with ha1 | ha1 <;> rcases List.mem_cons.mp hb with hb1 | hb1
    · exact congrArg Prod.snd (ha1.trans hb1.symm)
    · exfalso
      apply hnotin
      have hpk : p.1 = k := by rw [← ha1]
      rw [hpk]
      exact List.mem_map.mpr ⟨(k, b), hb1, rfl⟩
    · exfalso
      apply hnotin
      have hpk : p.1 = k := by rw [← hb1]
      rw [hpk]
      exact List.mem_map.mpr ⟨(k, a), ha1, rfl⟩
    · exact ih hnd2 ha1 hb1

theorem map_eq_self_of_id {α : Type} (l : List α) (f : α → α) (h : ∀ a ∈ l, f a = a) :
    l.map f = l := by
  simpa using List.map_congr_left h

theorem map_ne_self_of_mem {α : Type} (l : List α) (f : α → α) (a : α)
    (ha : a ∈ l) (h : f a ≠ a) : l.map f ≠ l := by
  induction l with
  | nil => simp at ha
  | cons b t ih =>
    rcases List.mem_cons.mp ha with rfl | ha2
    · intro he
      simp only [List.map_cons, List.cons.injEq] at he
      exact h he.1
    · intro he
      simp only [List.map_cons, List.cons.injEq] at he
      exact ih ha2 he.2

theorem dbGet_map_entries (db : DB) (f : String → Record → Record) (k : String) :
    dbGet (db.map (fun p => (p.1, f p.1 p.2))) k = (dbGet db k).map (f k) := by
  induction db with
  | nil => simp [dbGet]
  | cons p t ih =>
    unfold dbGet at ih ⊢
    by_cases hp : p.1 = k
    · simp [List.find?, hp]
    · simp only [List.map_cons, List.find?]
      have : (decide (p.1 = k)) = false := by simp [hp]
      simp only [this]
      exact ih

/-! ## Sweep lemmas -/

theorem expiry_job_db (db : DB) (env : SweepEnv) :
    (expiry_job db env).db = db.map (fun p => (p.1, (sweepRec env p.1 p.2).newRec)) := by
  unfold expiry_job
  by_cases h : db.isEmpty
  · rw [List.isEmpty_iff.mp h]
    simp
  · simp only [h, Bool.false_eq_true, if_false, List.map_map]
    rfl

theorem dbGet_expiry_job (db : DB) (env : SweepEnv) (k : String) :
    dbGet (expiry_job db env).db k = (dbGet db k).map (fun r => (sweepRec env k r).newRec) := by
  rw [expiry_job_db]
  exact dbGet_map_entries db (fun u r => (sweepRec env u r).newRec) k

theorem sweepRec_of_due (env : SweepEnv) (uid : String) (r : Record) (n : Int)
    (hs : r.status = some "active") (he : expiryInt r = some n) (hn : n ≤ env.now)
    (hrv : env.revokeOk uid = true) :
    sweepRec env uid r =
      ⟨{ r with status := some "expired", expired_at := some env.now_iso }, true, true, true⟩ := by
  unfold sweepRec
  rw [if_pos hs, he]
  simp [hn, hrv]

theorem sweepRec_revoke_failed (env : SweepEnv) (uid : String) (r : Record) (n : Int)
    (hs : r.status = some "active") (he : expiryInt r = some n) (hn : n ≤ env.now)
    (hrv : env.revokeOk uid = false) :
    sweepRec env uid r = ⟨r, false, true, false⟩ := by
  unfold sweepRec
  rw [if_pos hs, he]
  simp [hn, hrv]

theorem sweepRec_malformed (env : SweepEnv) (uid : String) (r : Record)
    (he : expiryInt r = none) :
    sweepRec env uid r = ⟨r, false, false, false⟩ := by
  unfold sweepRec
  by_cases hs : r.status = some "active"
  · rw [if_pos hs, he]
  · rw [if_neg hs]

theorem sweepRec_not_due (env : SweepEnv) (uid : String) (r : Record)
    (h : ¬ Due r env.now) (hwf : ∃ n, expiryInt r = some n) :
    sweepRec env uid r = ⟨r, false, false, false⟩ := by
  obtain ⟨n, he⟩ := hwf
  unfold sweepRec
  by_cases hs : r.status = some "active"
  · rw [if_pos hs, he]
    have hn : ¬ n ≤ env.now := by
      intro hn
      exact h ⟨hs, n, he, hn⟩
    simp [hn]
  · rw [if_neg hs]

theorem sweepRec_cases (env : SweepEnv) (uid : String) (r : Record) :
    sweepRec env uid r = ⟨r, false, false, false⟩ ∨
    sweepRec env uid r = ⟨r, false, true, false⟩ ∨
    (r.status = some "active" ∧ sweepRec env uid r =
      ⟨{ r with status := some "expired", expired_at := some env.now_iso }, true, true, true⟩) := by
  by_cases hs : r.status = some "active"
  · cases he : expiryInt r with
    | none => exact Or.inl (sweepRec_malformed env uid r he)
    | some n =>
      by_cases hn : n ≤ env.now
      · by_cases hrv : env.revokeOk uid = true
        · exact Or.inr (Or.inr ⟨hs, sweepRec_of_due env uid r n hs he hn hrv⟩)
        · exact Or.inr (Or.inl
            (sweepRec_revoke_failed env uid r n hs he hn (Bool.eq_false_iff.mpr hrv)))
      · refine Or.inl (sweepRec_not_due env uid r ?_ ⟨n, he⟩)
        rintro ⟨-, m, hm, hmn⟩
        rw [he] at hm
        have hnm := Option.some.inj hm
        subst hnm
        exact hn hmn
  · refine Or.inl ?_
    unfold sweepRec
    rw [if_neg hs]

theorem sweepRec_newRec_of_not_changed (env : SweepEnv) (uid : String) (r : Record)
    (h : (sweepRec env uid r).changed = false) : (sweepRec env uid r).newRec = r := by
  rcases sweepRec_cases env uid r with hc | hc | ⟨_, hc⟩
  · rw [hc]
  · rw [hc]
  · rw [hc] at h
    simp at h

theorem sweepRec_newRec_ne_of_changed (env : SweepEnv) (uid : String) (r : Record)
    (h : (sweepRec env uid r).changed = true) : (sweepRec env uid r).newRec ≠ r := by
  rcases sweepRec_cases env uid r with hc | hc | ⟨hs, hc⟩
  · rw [hc] at h
    simp at h
  · rw [hc] at h
    simp at h
  · rw [hc]
    intro he
    have : r.status = some "expired" := by rw [← he]
    rw [hs] at this
    simp at this

theorem mem_revokes_iff (db : DB) (env : SweepEnv) (uid : String) :
    uid ∈ (expiry_job db env).revokes ↔
      ∃ r, (uid, r) ∈ db ∧ (sweepRec env uid r).revoked = true := by
  unfold expiry_job
  by_cases h : db.isEmpty
  · rw [List.isEmpty_iff.mp h]
    simp
  · simp only [h, Bool.false_eq_true, if_false, List.mem_map, List.mem_filter]
    constructor
    · rintro ⟨q, ⟨⟨p, hp, rfl⟩, hrev⟩, rfl⟩
      exact ⟨p.2, by simpa using hp, hrev⟩
    · rintro ⟨r, hm, hrev⟩
      exact ⟨(uid, sweepRec env uid r), ⟨⟨(uid, r), hm, rfl⟩, hrev⟩, rfl⟩

theorem mem_dms_iff (db : DB) (env : SweepEnv) (uid : String) :
    uid ∈ (expiry_job db env).dms ↔
      ∃ r, (uid, r) ∈ db ∧ (sweepRec env uid r).dm = true := by
  unfold expiry_job
  by_cases h : db.isEmpty
  · rw [List.isEmpty_iff.mp h]
    simp
  · simp only [h, Bool.false_eq_true, if_false, List.mem_map, List.mem_filter]
    constructor
    · rintro ⟨q, ⟨⟨p, hp, rfl⟩, hdm⟩, rfl⟩
      exact ⟨p.2, by simpa using hp, hdm⟩
    · rintro ⟨r, hm, hdm⟩
      exact ⟨(uid, sweepRec env uid r), ⟨⟨(uid, r), hm, rfl⟩, hdm⟩, rfl⟩

theorem sweepRec_of_not_due (env : SweepEnv) (uid : String) (r : Record)
    (h : ¬ Due r env.now) : sweepRec env uid r = ⟨r, false, false, false⟩ := by
  by_cases hs : r.status = some "active"
  · cases he : expiryInt r with
    | none => exact sweepRec_malformed env uid r he
    | some n =>
      by_cases hn : n ≤ env.now
      · exact absurd ⟨hs, n, he, hn⟩ h
      · unfold sweepRec
        rw [if_pos hs, he]
        simp [hn]
  · unfold sweepRec
    rw [if_neg hs]

theorem activationPhase_db_of_ok (db : DB) (tg : Nat) (env : ActEnv) (i : String)
    (h : env.inviteRes = Except.ok i) :
    (activationPhase db tg env).db = dbSet db (toString tg) (activationRecord env) := by
  unfold activationPhase
  rw [h]
  by_cases hs : env.saveOk <;> simp [hs]

/-- `expiry_job`'s save count, as a function of whether any record changed
state (also valid for the empty store, where the early return happens). -/
theorem expiry_job_saveCalls (db : DB) (env : SweepEnv) :
    (expiry_job db env).saveCalls =
      if (db.map (fun p => (p.1, sweepRec env p.1 p.2))).any (fun q => q.2.changed)
      then 1 else 0 := by
  unfold expiry_job
  by_cases h : db.isEmpty
  · rw [List.isEmpty_iff.mp h]
    simp
  · simp only [h, Bool.false_eq_true, if_false]

theorem expiry_job_fileWrite (db : DB) (env : SweepEnv) :
    (expiry_job db env).fileWrite =
      if (db.map (fun p => (p.1, sweepRec env p.1 p.2))).any (fun q => q.2.changed)
      then some (db.map (fun p => (p.1, (sweepRec env p.1 p.2).newRec))) else none := by
  unfold expiry_job
  by_cases h : db.isEmpty
  · rw [List.isEmpty_iff.mp h]
    simp
  · simp only [h, Bool.false_eq_true, if_false, List.map_map]
    rfl

theorem expiry_job_revokes (db : DB) (env : SweepEnv) :
    (expiry_job db env).revokes =
      ((db.map (fun p => (p.1, sweepRec env p.1 p.2))).filter
        (fun q => q.2.revoked)).map (fun q => q.1) := by
  unfold expiry_job
  by_cases h : db.isEmpty
  · rw [List.isEmpty_iff.mp h]
    simp
  · simp only [h, Bool.false_eq_true, if_false]

theorem expiry_job_dms (db : DB) (env : SweepEnv) :
    (expiry_job db env).dms =
      ((db.map (fun p => (p.1, sweepRec env p.1 p.2))).filter
        (fun q => q.2.dm)).map (fun q => q.1) := by
  unfold expiry_job
  by_cases h : db.isEmpty
  · rw [List.isEmpty_iff.mp h]
    simp
  · simp only [h, Bool.false_eq_true, if_false]

/-! ## The data-model invariant on `expired_at` -/

/-- `expired_at` is present iff `status = expired`, for one record. -/
def WfRec (r : Record) : Prop :=
  r.expired_at.isSome = true ↔ r.status = some "expired"

instance (r : Record) : Decidable (WfRec r) := by
  unfold WfRec; infer_instance

/-- Every record of the store satisfies `WfRec`. -/
def StoreInv (db : DB) : Prop := ∀ p ∈ db, WfRec p.2

theorem wfRec_activationRecord (env : ActEnv) : WfRec (activationRecord env) := by
  unfold WfRec activationRecord
  simp

theorem storeInv_dbSet (db : DB) (k : String) (v : Record)
    (h : StoreInv db) (hv : WfRec v) : StoreInv (dbSet db k v) := by
  intro p hp
  unfold dbSet at hp
  by_cases ha : db.any (fun q => q.1 = k) = true
  · rw [if_pos ha] at hp
    rcases List.mem_map.mp hp with ⟨q, hq, rfl⟩
    by_cases hk : q.1 = k
    · rw [if_pos hk]
      exact hv
    · rw [if_neg hk]
      exact h q hq
  · rw [if_neg ha] at hp
    rcases List.mem_append.mp hp with hp1 | hp1
    · exact h p hp1
    · rcases List.mem_singleton.mp hp1 with rfl
      exact hv

/-! ## Concrete fixtures used by witnesses -/

/-- A gateway lookup answering `status="Completed"` with
`telegram_user_id = "42"` in the metadata. -/
def lookupA : Except Unit (Option PaymentRequest) :=
  .ok (some { status := some "Completed"
              metadata := .mdict [("telegram_user_id", .pstr "42")] })

/-- An activation environment where everything succeeds. -/
def envOkA : ActEnv :=
  { inviteRes := .ok "https://t.me/+linkA", saveOk := true,
    now := 1000, now_iso := "2026-01-01T00:00:00+05:30" }

/-- A later all-succeeding activation environment (for the renewal). -/
def envOkB : ActEnv :=
  { inviteRes := .ok "https://t.me/+linkB", saveOk := true,
    now := 2000, now_iso := "2026-01-02T00:00:00+05:30" }

/-- An activation environment whose invite-creation call raises. -/
def envFailA : ActEnv :=
  { inviteRes := .error (), saveOk := true,
    now := 1000, now_iso := "2026-01-01T00:00:00+05:30" }

/-- A sweep environment at `now = 100` where every Telegram removal
succeeds. -/
def envSweepAll : SweepEnv :=
  { now := 100, now_iso := "2026-02-01T02:05:00+05:30", revokeOk := fun _ => true }

/-- An active record one second past due at `envSweepAll.now = 100`. -/
def recDue : Record :=
  { expiry_ts := some (.pint 99), status := some "active",
    last_payment := some "2026-01-01T00:00:00+05:30", expired_at := none }

/-- An active record one second before due at `envSweepAll.now = 100`. -/
def recFuture : Record :=
  { expiry_ts := some (.pint 101), status := some "active",
    last_payment := some "2026-01-01T00:00:00+05:30", expired_at := none }

/-! ## Claims -/

/-- C1: for every activation (webhook with a verified payment), if
credential issuance fails then the store is unchanged — in particular for
that identity — and no save is performed: the in-memory dict is untouched,
zero `save_db` calls run, nothing is written to disk. -/
theorem claim_C1_no_credential_no_record (db : DB) (req_id : String)
    (lookup : Except Unit (Option PaymentRequest)) (env : ActEnv) (tg : Nat)
    (hv : verifyPhase req_id lookup = Sum.inr tg)
    (hfail : env.inviteRes = Except.error ()) :
    (instamojo_webhook db req_id lookup env).db = db ∧
    (instamojo_webhook db req_id lookup env).saveCalls = 0 ∧
    (instamojo_webhook db req_id lookup env).fileWrite = none := by
  unfold instamojo_webhook
  rw [hv]
  unfold activationPhase
  rw [hfail]
  exact ⟨rfl, rfl, rfl⟩

/-- C1 witness: a concrete verified payment for id 42 whose invite call
raises leaves the empty store empty with no save. -/
theorem claim_C1_witness :
    (instamojo_webhook [] "r1" lookupA envFailA).db = [] ∧
    (instamojo_webhook [] "r1" lookupA envFailA).saveCalls = 0 ∧
    (instamojo_webhook [] "r1" lookupA envFailA).fileWrite = none :=
  claim_C1_no_credential_no_record [] "r1" lookupA envFailA 42 (by rfl) (by rfl)

/-- C10: once the payment verifies, the handler answers `("ok", 200)`
unconditionally — the whole activation block sits in `try/except: pass` —
so the gateway never redelivers; and when the activation fails (invite
issuance raised, or `save_db` raised) nothing was durably written and no
credential was delivered to the subscriber. -/
theorem claim_C10_ok_even_on_failure (db : DB) (req_id : String)
    (lookup : Except Unit (Option PaymentRequest)) (env : ActEnv) (tg : Nat)
    (hv : verifyPhase req_id lookup = Sum.inr tg) :
    (instamojo_webhook db req_id lookup env).response = ("ok", 200) ∧
    ((env.inviteRes = Except.error () ∨ env.saveOk = false) →
      (instamojo_webhook db req_id lookup env).fileWrite = none ∧
      (instamojo_webhook db req_id lookup env).dms = []) := by
  unfold instamojo_webhook
  rw [hv]
  unfold activationPhase
  cases hi : env.inviteRes with
  | error e => exact ⟨rfl, fun _ => ⟨rfl, rfl⟩⟩
  | ok s =>
    cases hsv : env.saveOk with
    | true =>
      refine ⟨rfl, ?_⟩
      rintro (hbad | hbad) <;> simp [hi, hsv] at hbad
    | false => exact ⟨rfl, fun _ => ⟨rfl, rfl⟩⟩

/-- C10 witness: the concrete failed-issuance activation still answers
`("ok", 200)` and leaves no file write and no DM. -/
theorem claim_C10_witness :
    (instamojo_webhook [] "r1" lookupA envFailA).response = ("ok", 200) ∧
    ((envFailA.inviteRes = Except.error () ∨ envFailA.saveOk = false) →
      (instamojo_webhook [] "r1" lookupA envFailA).fileWrite = none ∧
      (instamojo_webhook [] "r1" lookupA envFailA).dms = []) :=
  claim_C10_ok_even_on_failure [] "r1" lookupA envFailA 42 (by rfl)

/-- C8: verification yields an identity iff a request id was supplied, the
gateway lookup succeeded, the returned status is in the accepted set (the
literal strings `Completed`/`Credit`/`Success`), and the metadata
`telegram_user_id` field is a digit string; and on every verification
failure the handler mutates nothing, performs no save, sends nothing, and
still acknowledges with HTTP 200. -/
theorem claim_C8_verification (db : DB) (req_id : String)
    (lookup : Except Unit (Option PaymentRequest)) (env : ActEnv) :
    ((∃ tg, verifyPhase req_id lookup = Sum.inr tg) ↔
      (req_id ≠ "" ∧ ∃ pr, lookup = Except.ok pr ∧
        acceptedStatuses.contains (prStatus pr) = true ∧
        pyIsDigit (tgField pr) = true)) ∧
    (∀ resp, verifyPhase req_id lookup = Sum.inl resp →
      resp.2 = 200 ∧
      (instamojo_webhook db req_id lookup env).db = db ∧
      (instamojo_webhook db req_id lookup env).saveCalls = 0 ∧
      (instamojo_webhook db req_id lookup env).fileWrite = none ∧
      (instamojo_webhook db req_id lookup env).dms = []) := by
  have hmain : ∀ x, verifyPhase req_id lookup = Sum.inl x → x.2 = 200 := by
    intro x hx
    unfold verifyPhase at hx
    by_cases hr : req_id = ""
    · rw [if_pos hr] at hx
      rw [← Sum.inl.inj hx]
    · rw [if_neg hr] at hx
      cases lookup with
      | error e =>
        dsimp only at hx
        rw [← Sum.inl.inj hx]
      | ok pr =>
        dsimp only at hx
        by_cases hstat : acceptedStatuses.contains (prStatus pr) = false
        · rw [if_pos hstat] at hx
          rw [← Sum.inl.inj hx]
        · rw [if_neg hstat] at hx
          by_cases hdig : pyIsDigit (tgField pr) = false
          · rw [if_pos hdig] at hx
            rw [← Sum.inl.inj hx]
          · rw [if_neg hdig] at hx
            cases hx
  constructor
  · unfold verifyPhase
    by_cases hr : req_id = ""
    · simp [hr]
    · rw [if_neg hr]
      cases lookup with
      | error e => simp
      | ok pr =>
        by_cases hstat : prStatus pr ∈ acceptedStatuses
        · by_cases hdig : pyIsDigit (tgField pr) = true
          · simp [hstat, hdig, hr]
          · simp [hstat, hdig, hr]
        · simp [hstat, hr]
  · intro resp hresp
    have hh : instamojo_webhook db req_id lookup env =
        { db := db, saveCalls := 0, fileWrite := none, dms := [], response := resp } := by
      unfold instamojo_webhook
      rw [hresp]
    rw [hh]
    exact ⟨hmain resp hresp, rfl, rfl, rfl, rfl⟩

/-- C8 witness: instantiation at a concrete failed lookup. -/
theorem claim_C8_witness :
    ((∃ tg, verifyPhase "r1" (Except.error ()) = Sum.inr tg) ↔
      (("r1" : String) ≠ "" ∧ ∃ pr, (Except.error () : Except Unit (Option PaymentRequest)) = Except.ok pr ∧
        acceptedStatuses.contains (prStatus pr) = true ∧
        pyIsDigit (tgField pr) = true)) ∧
    (∀ resp, verifyPhase "r1" (Except.error ()) = Sum.inl resp →
      resp.2 = 200 ∧
      (instamojo_webhook [] "r1" (Except.error ()) envOkA).db = [] ∧
      (instamojo_webhook [] "r1" (Except.error ()) envOkA).saveCalls = 0 ∧
      (instamojo_webhook [] "r1" (Except.error ()) envOkA).fileWrite = none ∧
      (instamojo_webhook [] "r1" (Except.error ()) envOkA).dms = []) :=
  claim_C8_verification [] "r1" (Except.error ()) envOkA

/-- C4: two successful activations in sequence for the same identity leave
exactly one row for that identity (the dict assignment overwrites in
place), and that row is exactly the record computed by the second call —
in particular `expiry_ts = now₂ + subscriptionPeriod`. -/
theorem claim_C4_idempotent_renewal (db : DB) (tg : Nat) (e1 e2 : ActEnv)
    (i1 i2 : String) (hnd : keysNodup db)
    (h1 : e1.inviteRes = Except.ok i1) (h2 : e2.inviteRes = Except.ok i2) :
    countKey (activationPhase (activationPhase db tg e1).db tg e2).db (toString tg) = 1 ∧
    dbGet (activationPhase (activationPhase db tg e1).db tg e2).db (toString tg) =
      some { expiry_ts := some (.pint (e2.now + subscriptionPeriod))
             status := some "active"
             last_payment := some e2.now_iso
             expired_at := none } := by
  rw [activationPhase_db_of_ok db tg e1 i1 h1]
  rw [activationPhase_db_of_ok (dbSet db (toString tg) (activationRecord e1)) tg e2 i2 h2]
  have hnd1 : keysNodup (dbSet db (toString tg) (activationRecord e1)) :=
    keysNodup_dbSet db (toString tg) (activationRecord e1) hnd
  exact ⟨countKey_dbSet_self _ _ _ hnd1, dbGet_dbSet_self _ _ _⟩

/-- C4 witness: activating id 5 twice on the empty store leaves one row
with the second call's expiry. -/
theorem claim_C4_witness :
    countKey (activationPhase (activationPhase [] 5 envOkA).db 5 envOkB).db (toString 5) = 1 ∧
    dbGet (activationPhase (activationPhase [] 5 envOkA).db 5 envOkB).db (toString 5) =
      some { expiry_ts := some (.pint (envOkB.now + subscriptionPeriod))
             status := some "active"
             last_payment := some envOkB.now_iso
             expired_at := none } :=
  claim_C4_idempotent_renewal [] 5 envOkA envOkB "https://t.me/+linkA" "https://t.me/+linkB"
    (by simp [keysNodup]) (by rfl) (by rfl)

/-- C2: a sweep at `now` processes exactly the due records (status
`active` and expiry value `≤ now`): assuming every Telegram removal
succeeds, each due record is revoked and transitioned to `expired` with
`expired_at` set, and every record that is not due is left untouched and
gets no revocation call. -/
theorem claim_C2_sweep_threshold (db : DB) (env : SweepEnv)
    (hnd : keysNodup db) (hrv : ∀ uid, env.revokeOk uid = true) :
    ∀ uid r, dbGet db uid = some r →
      (Due r env.now →
        dbGet (expiry_job db env).db uid =
          some { r with status := some "expired", expired_at := some env.now_iso } ∧
        uid ∈ (expiry_job db env).revokes) ∧
      (¬ Due r env.now →
        dbGet (expiry_job db env).db uid = some r ∧
        uid ∉ (expiry_job db env).revokes) := by
  intro uid r hget
  have hmem := mem_of_dbGet db uid r hget
  constructor
  · rintro ⟨hs, n, he, hn⟩
    have hstep := sweepRec_of_due env uid r n hs he hn (hrv uid)
    constructor
    · rw [dbGet_expiry_job, hget, Option.map_some', hstep]
    · exact (mem_revokes_iff db env uid).mpr ⟨r, hmem, by rw [hstep]⟩
  · intro hnotdue
    have hstep := sweepRec_of_not_due env uid r hnotdue
    constructor
    · rw [dbGet_expiry_job, hget, Option.map_some', hstep]
    · intro hin
      rcases (mem_revokes_iff db env uid).mp hin with ⟨r2, hm2, hrev2⟩
      have : r2 = r := dbGet_unique db uid r2 r hnd hm2 hmem
      subst this
      rw [hstep] at hrev2
      cases hrev2

/-- C2 witness: at `now = 100`, a record with `expiry_ts = 99` is revoked
and transitioned, and a record with `expiry_ts = 101` is untouched. -/
theorem claim_C2_witness :
    ((dbGet (expiry_job [("1", recDue), ("2", recFuture)] envSweepAll).db "1" =
        some { recDue with
               status := some "expired"
               expired_at := some "2026-02-01T02:05:00+05:30" } ∧
      "1" ∈ (expiry_job [("1", recDue), ("2", recFuture)] envSweepAll).revokes) ∧
     (dbGet (expiry_job [("1", recDue), ("2", recFuture)] envSweepAll).db "2" =
        some recFuture ∧
      "2" ∉ (expiry_job [("1", recDue), ("2", recFuture)] envSweepAll).revokes)) := by
  have h1 := claim_C2_sweep_threshold [("1", recDue), ("2", recFuture)] envSweepAll
    (by simp [keysNodup]) (fun _ => rfl) "1" recDue (by rfl)
  have h2 := claim_C2_sweep_threshold [("1", recDue), ("2", recFuture)] envSweepAll
    (by simp [keysNodup]) (fun _ => rfl) "2" recFuture (by rfl)
  exact ⟨h1.1 (by decide), h2.2 (by decide)⟩

/-- C3: a revocation failure for one due record leaves it `active` and
unchanged and does not abort the batch: with two due records where the
removal fails for the first and succeeds for the second, the sweep leaves
the first record exactly as it was, transitions only the second, attempted
both removals, messaged only the second subscriber, and still saved once. -/
theorem claim_C3_partial_failure (a b : String) (ra rb : Record) (env : SweepEnv)
    (hda : Due ra env.now) (hdb2 : Due rb env.now)
    (hfa : env.revokeOk a = false) (hsb : env.revokeOk b = true) :
    (expiry_job [(a, ra), (b, rb)] env).db =
      [(a, ra), (b, { rb with status := some "expired", expired_at := some env.now_iso })] ∧
    (expiry_job [(a, ra), (b, rb)] env).revokes = [a, b] ∧
    (expiry_job [(a, ra), (b, rb)] env).dms = [b] ∧
    (expiry_job [(a, ra), (b, rb)] env).saveCalls = 1 := by
  obtain ⟨hsa, n, hea, hna⟩ := hda
  obtain ⟨hsb2, m, heb, hnb⟩ := hdb2
  have hstepa := sweepRec_revoke_failed env a ra n hsa hea hna hfa
  have hstepb := sweepRec_of_due env b rb m hsb2 heb hnb hsb
  refine ⟨?_, ?_, ?_, ?_⟩
  · rw [expiry_job_db]
    simp [hstepa, hstepb]
  · rw [expiry_job_revokes]
    simp [hstepa, hstepb]
  · rw [expiry_job_dms]
    simp [hstepa, hstepb]
  · rw [expiry_job_saveCalls]
    simp [hstepa, hstepb]

/-- C3 witness: concrete two-record sweep where removal fails for id 3 and
succeeds for id 4. -/
theorem claim_C3_witness :
    (expiry_job [("3", recDue), ("4", recDue)]
        { now := 100, now_iso := "2026-02-01T02:05:00+05:30",
          revokeOk := fun uid => uid ≠ "3" }).db =
      [("3", recDue),
       ("4", { recDue with
               status := some "expired"
               expired_at := some "2026-02-01T02:05:00+05:30" })] ∧
    (expiry_job [("3", recDue), ("4", recDue)]
        { now := 100, now_iso := "2026-02-01T02:05:00+05:30",
          revokeOk := fun uid => uid ≠ "3" }).revokes = ["3", "4"] ∧
    (expiry_job [("3", recDue), ("4", recDue)]
        { now := 100, now_iso := "2026-02-01T02:05:00+05:30",
          revokeOk := fun uid => uid ≠ "3" }).dms = ["4"] ∧
    (expiry_job [("3", recDue), ("4", recDue)]
        { now := 100, now_iso := "2026-02-01T02:05:00+05:30",
          revokeOk := fun uid => uid ≠ "3" }).saveCalls = 1 :=
  claim_C3_partial_failure "3" "4" recDue recDue
    { now := 100, now_iso := "2026-02-01T02:05:00+05:30", revokeOk := fun uid => uid ≠ "3" }
    (by decide) (by decide) (by decide) (by decide)

/-- An active record whose dict has no `expiry_ts` key at all. -/
def recNoExpiry : Record :=
  { expiry_ts := none, status := some "active",
    last_payment := some "2026-01-01T00:00:00+05:30", expired_at := none }

/-- C5 counterexample: the claim predicts that a record with no
`expiry_ts` is defensively skipped (left unchanged, no revocation
attempted).  In the code `int(rec.get("expiry_ts", 0))` defaults the
missing field to `0`, so at `now = 100` the record is treated as due: a
removal IS attempted and the record IS transitioned to `expired` — it is
not left unchanged. -/
theorem claim_C5_counterexample :
    (expiry_job [("7", recNoExpiry)] envSweepAll).revokes = ["7"] ∧
    (expiry_job [("7", recNoExpiry)] envSweepAll).db =
      [("7", { recNoExpiry with
               status := some "expired"
               expired_at := some "2026-02-01T02:05:00+05:30" })] ∧
    ¬ (expiry_job [("7", recNoExpiry)] envSweepAll).db = [("7", recNoExpiry)] := by
  refine ⟨rfl, rfl, ?_⟩
  intro h
  exact absurd h (by decide)

/-- C5 (amended): a malformed record whose `expiry_ts` value is present
but fails integer conversion (so `int(...)` raises) is defensively
skipped — left unchanged, no removal attempted — and does not abort the
batch: a due record after it in the same sweep is still revoked and
transitioned; a record with the `expiry_ts` key missing entirely is NOT
skipped (it is treated as `expiry_ts = 0`, hence due). -/
theorem claim_C5_amended (a b : String) (ra rb : Record) (env : SweepEnv)
    (hea : expiryInt ra = none)
    (hdb2 : Due rb env.now) (hsb : env.revokeOk b = true) :
    (expiry_job [(a, ra), (b, rb)] env).db =
      [(a, ra), (b, { rb with status := some "expired", expired_at := some env.now_iso })] ∧
    (expiry_job [(a, ra), (b, rb)] env).revokes = [b] ∧
    (expiry_job [(a, ra), (b, rb)] env).dms = [b] := by
  obtain ⟨hsb2, m, heb, hnb⟩ := hdb2
  have hstepa := sweepRec_malformed env a ra hea
  have hstepb := sweepRec_of_due env b rb m hsb2 heb hnb hsb
  refine ⟨?_, ?_, ?_⟩
  · rw [expiry_job_db]
    simp [hstepa, hstepb]
  · rw [expiry_job_revokes]
    simp [hstepa, hstepb]
  · rw [expiry_job_dms]
    simp [hstepa, hstepb]

/-- An active record whose `expiry_ts` is a non-numeric string, so
`int(...)` raises on it. -/
def recBadExpiry : Record :=
  { expiry_ts := some (.pstr "oops"), status := some "active",
    last_payment := some "2026-01-01T00:00:00+05:30", expired_at := none }

/-- C5 amended witness: the unparseable record is skipped while the due
record after it is still processed. -/
theorem claim_C5_witness :
    (expiry_job [("9", recBadExpiry), ("8", recDue)] envSweepAll).db =
      [("9", recBadExpiry),
       ("8", { recDue with
               status := some "expired"
               expired_at := some "2026-02-01T02:05:00+05:30" })] ∧
    (expiry_job [("9", recBadExpiry), ("8", recDue)] envSweepAll).revokes = ["8"] ∧
    (expiry_job [("9", recBadExpiry), ("8", recDue)] envSweepAll).dms = ["8"] :=
  claim_C5_amended "9" "8" recBadExpiry recDue envSweepAll
    (by decide) (by decide) (by decide)

/-- C7: the sweep saves at most once; it saves exactly once iff some
record changed state (equivalently, iff the store changed); sweeping the
empty store, or any store with no due records, performs zero saves, zero
file writes, zero Telegram removal calls, zero DMs, and leaves the store
exactly as it was. -/
theorem claim_C7_idle_and_batched_save (db : DB) (env : SweepEnv) :
    ((expiry_job [] env).saveCalls = 0 ∧ (expiry_job [] env).fileWrite = none ∧
      (expiry_job [] env).revokes = [] ∧ (expiry_job [] env).dms = []) ∧
    ((∀ p ∈ db, ¬ Due p.2 env.now) →
      (expiry_job db env).saveCalls = 0 ∧ (expiry_job db env).fileWrite = none ∧
      (expiry_job db env).revokes = [] ∧ (expiry_job db env).dms = [] ∧
      (expiry_job db env).db = db) ∧
    ((expiry_job db env).saveCalls = 1 ↔ (expiry_job db env).db ≠ db) ∧
    (expiry_job db env).saveCalls ≤ 1 := by
  refine ⟨⟨rfl, rfl, rfl, rfl⟩, ?_, ?_, ?_⟩
  · intro hnone
    have hsteps : ∀ p ∈ db, sweepRec env p.1 p.2 = ⟨p.2, false, false, false⟩ :=
      fun p hp => sweepRec_of_not_due env p.1 p.2 (hnone p hp)
    have hany : (db.map (fun p => (p.1, sweepRec env p.1 p.2))).any
        (fun q => q.2.changed) = false := by
      rw [List.any_eq_false]
      intro q hq
      rcases List.mem_map.mp hq with ⟨p, hp, rfl⟩
      rw [hsteps p hp]
      simp
    have hfilr : (db.map (fun p => (p.1, sweepRec env p.1 p.2))).filter
        (fun q => q.2.revoked) = [] := by
      rw [List.filter_eq_nil_iff]
      intro q hq
      rcases List.mem_map.mp hq with ⟨p, hp, rfl⟩
      rw [hsteps p hp]
      simp
    have hfild : (db.map (fun p => (p.1, sweepRec env p.1 p.2))).filter
        (fun q => q.2.dm) = [] := by
      rw [List.filter_eq_nil_iff]
      intro q hq
      rcases List.mem_map.mp hq with ⟨p, hp, rfl⟩
      rw [hsteps p hp]
      simp
    refine ⟨?_, ?_, ?_, ?_, ?_⟩
    · rw [expiry_job_saveCalls, hany]
      rfl
    · rw [expiry_job_fileWrite, hany]
      rfl
    · rw [expiry_job_revokes, hfilr]
      rfl
    · rw [expiry_job_dms, hfild]
      rfl
    · rw [expiry_job_db]
      apply map_eq_self_of_id
      intro p hp
      rw [hsteps p hp]
  · rw [expiry_job_saveCalls, expiry_job_db]
    by_cases hc : (db.map (fun p => (p.1, sweepRec env p.1 p.2))).any
        (fun q => q.2.changed) = true
    · rw [hc]
      simp only [if_true]
      constructor
      · intro _
        rcases List.any_eq_true.mp hc with ⟨q, hq, hch⟩
        rcases List.mem_map.mp hq with ⟨p, hp, rfl⟩
        apply map_ne_self_of_mem db (fun p => (p.1, (sweepRec env p.1 p.2).newRec)) p hp
        intro he
        have hsnd : (sweepRec env p.1 p.2).newRec = p.2 := congrArg Prod.snd he
        exact sweepRec_newRec_ne_of_changed env p.1 p.2 (by simpa using hch) hsnd
      · intro _
        trivial
    · have hc2 : (db.map (fun p => (p.1, sweepRec env p.1 p.2))).any
          (fun q => q.2.changed) = false := Bool.eq_false_iff.mpr hc
      rw [hc2]
      have heq : db.map (fun p => (p.1, (sweepRec env p.1 p.2).newRec)) = db := by
        apply map_eq_self_of_id
        intro p hp
        have hch : (sweepRec env p.1 p.2).changed = false := by
          rcases List.any_eq_false.mp hc2 ((p.1, sweepRec env p.1 p.2))
            (List.mem_map.mpr ⟨p, hp, rfl⟩) with h2
          simpa using h2
        rw [sweepRec_newRec_of_not_changed env p.1 p.2 hch]
      simp [heq]
  · rw [expiry_job_saveCalls]
    by_cases hc : (db.map (fun p => (p.1, sweepRec env p.1 p.2))).any
        (fun q => q.2.changed) = true <;> simp [hc]

/-- C7 witness: sweeping a one-record store whose record is not yet due
performs no save, no write, no removal, no DM, and leaves the store
unchanged. -/
theorem claim_C7_witness :
    (expiry_job [("2", recFuture)] envSweepAll).saveCalls = 0 ∧
    (expiry_job [("2", recFuture)] envSweepAll).fileWrite = none ∧
    (expiry_job [("2", recFuture)] envSweepAll).revokes = [] ∧
    (expiry_job [("2", recFuture)] envSweepAll).dms = [] ∧
    (expiry_job [("2", recFuture)] envSweepAll).db = [("2", recFuture)] :=
  (claim_C7_idle_and_batched_save [("2", recFuture)] envSweepAll).2.1 (by decide)

/-- C6: in every store state reachable from the empty store by webhook
activations and sweeps, a record carries `expired_at` iff its status is
`expired`: the sweep sets `expired_at` exactly when it transitions a
record, and a renewal overwrites the row with a fresh record that has
`status="active"` and no `expired_at` key. -/
theorem claim_C6_expired_at_iff_expired (db : DB) (h : Reachable db) : StoreInv db := by
  induction h with
  | empty =>
    intro p hp
    simp at hp
  | webhook db req_id lookup env hr ih =>
    unfold instamojo_webhook
    cases hv : verifyPhase req_id lookup with
    | inl resp => exact ih
    | inr tg =>
      unfold activationPhase
      cases hi : env.inviteRes with
      | error e => exact ih
      | ok s =>
        have hset : StoreInv (dbSet db (toString tg) (activationRecord env)) :=
          storeInv_dbSet db (toString tg) (activationRecord env) ih
            (wfRec_activationRecord env)
        cases env.saveOk with
        | false => exact hset
        | true => exact hset
  | sweep db env hr ih =>
    rw [expiry_job_db]
    intro p hp
    rcases List.mem_map.mp hp with ⟨q, hq, rfl⟩
    have hwq := ih q hq
    rcases sweepRec_cases env q.1 q.2 with hc | hc | ⟨hs, hc⟩
    · rw [hc]
      exact hwq
    · rw [hc]
      exact hwq
    · rw [hc]
      unfold WfRec
      simp

/-- C6 witness: the invariant instantiated at the concrete reachable store
obtained by one successful activation followed by one sweep. -/
theorem claim_C6_witness :
    StoreInv (expiry_job (instamojo_webhook [] "r1" lookupA envOkA).db envSweepAll).db :=
  claim_C6_expired_at_iff_expired _
    (Reachable.sweep _ envSweepAll
      (Reachable.webhook [] "r1" lookupA envOkA Reachable.empty))

/-! ## Absence of mutual exclusion (claim C9)

`app.py` contains no lock of any kind (no `threading.Lock`, semaphore or
queue): `expiry_job` runs on the APScheduler background thread
(lines 235-237) while `instamojo_webhook` mutates the same global `DB` on
the web-server thread, and `/run-expiry` (line 182) can run the sweep on a
web-server thread as well.  The following definition is the
source-faithful composition of the two handlers under one thread schedule
that the absent locking permits. -/

/-- One unsynchronized interleaving: the sweep loop body has evaluated its
guard (line 215) on a snapshot of the record for `uid` and completed the
Telegram removal (lines 217-218); the webhook handler then runs to
completion for the same identity (lines 153-161, overwriting `DB[uid]`
with a fresh active record and saving); the sweep then resumes and
performs its two writes `DB[uid]["status"] = "expired"` and
`DB[uid]["expired_at"] = ...` (lines 219-220) against the *current* dict
entry, and the batched save (line 232) persists the result. -/
def raceSweepWebhook (db : DB) (req_id : String)
    (lookup : Except Unit (Option PaymentRequest)) (aenv : ActEnv) (senv : SweepEnv)
    (uid : String) : DB :=
  match dbGet db uid with
  | none => (instamojo_webhook db req_id lookup aenv).db
  | some r =>
    if (sweepRec senv uid r).changed then
      let dbA := (instamojo_webhook db req_id lookup aenv).db
      match dbGet dbA uid with
      | some r2 =>
        dbSet dbA uid { r2 with
          status := some "expired"
          expired_at := some senv.now_iso }
      | none => dbA
    else (instamojo_webhook db req_id lookup aenv).db

/-- The store before the race: id 5 holds an active record that lapsed at
`expiry_ts = 50`. -/
def raceDb : DB :=
  [("5", { expiry_ts := some (.pint 50), status := some "active",
           last_payment := some "2025-12-01T00:00:00+05:30", expired_at := none })]

/-- A verified renewal payment for id 5. -/
def raceLookup : Except Unit (Option PaymentRequest) :=
  .ok (some { status := some "Completed"
              metadata := .mdict [("telegram_user_id", .pstr "5")] })

/-- The webhook's activation environment during the race (everything
succeeds, `now = 100`). -/
def raceAEnv : ActEnv :=
  { inviteRes := .ok "https://t.me/+link5", saveOk := true,
    now := 100, now_iso := "2026-01-01T00:00:10+05:30" }

/-- The sweep's environment during the race (`now = 100`, removal
succeeds). -/
def raceSEnv : SweepEnv :=
  { now := 100, now_iso := "2026-01-01T00:00:20+05:30", revokeOk := fun _ => true }

/-- C9: the code provides no mutual-exclusion domain, and the interleaving
above — permitted precisely because nothing serializes the two
load→mutate→save sequences — loses the renewal: after a successful, saved
activation at `now = 100`, the concurrently running sweep (which decided
on the stale snapshot) marks the fresh record `expired`, leaving a
subscriber who just paid with `status="expired"` even though the record's
own `expiry_ts` lies a full subscription period in the future. -/
theorem claim_C9_lost_update :
    raceSweepWebhook raceDb "r5" raceLookup raceAEnv raceSEnv "5" =
      [("5", { expiry_ts := some (.pint (100 + subscriptionPeriod))
               status := some "expired"
               last_payment := some "2026-01-01T00:00:10+05:30"
               expired_at := some "2026-01-01T00:00:20+05:30" })] ∧
    raceSEnv.now < 100 + subscriptionPeriod := by
  refine ⟨rfl, ?_⟩
  decide

end App
